import Mathlib

/-!
Verification of the geometry-normalization core of `geofileops`
(`geofileops/util/vector_util/geometry.py`).

Coordinates are modelled as exact rationals (the source uses machine floats);
external collaborators (the geometry kernel's `make_valid`, ring-area and
intersection predicate, and the RDP/VW index-selection library) are modelled
as parameters collected in a `Kernel` structure, following the spec's
"narrow interface boundary" design note.  Fallible code returns
`Except GeomError`; the Lang sliding-window loop, whose termination is part
of what is being verified, is modelled as an explicit step function driven
by a fuel-indexed runner.
-/

namespace Geofileops

/-- A 2D coordinate pair (the source uses float pairs; we use exact rationals). -/
abbrev Coord := Rat × Rat

/-- The closed tag set of `class GeometryType(enum.Enum)` in the source. -/
inductive GeometryType where
  | missing
  | point
  | lineString
  | linearRing
  | polygon
  | multiPoint
  | multiLineString
  | multiPolygon
  | geometryCollection
deriving DecidableEq, Repr

/-- The closed tag set of `class PrimitiveType(enum.Enum)` in the source. -/
inductive PrimitiveType where
  | point
  | lineString
  | polygon
deriving DecidableEq, Repr

/-- Recursive, immutable geometry values (shapely geometry objects in the
source).  An empty `Point()` is `point none`; `lineString []` and
`polygon [] []` are the empty line and polygon.  Multi-part containers hold
arbitrary child geometries, as shapely constructors are handed python lists. -/
inductive Geometry where
  | point (c : Option Coord)
  | lineString (coords : List Coord)
  | polygon (shell : List Coord) (holes : List (List Coord))
  | multiPoint (parts : List Geometry)
  | multiLineString (parts : List Geometry)
  | multiPolygon (parts : List Geometry)
  | geometryCollection (parts : List Geometry)

/-- The tag of a geometry value (`geom_type` in shapely). -/
def geomType : Geometry → GeometryType
  | .point _ => .point
  | .lineString _ => .lineString
  | .polygon _ _ => .polygon
  | .multiPoint _ => .multiPoint
  | .multiLineString _ => .multiLineString
  | .multiPolygon _ => .multiPolygon
  | .geometryCollection _ => .geometryCollection

/-- The error taxonomy raised by the module (`raise Exception(...)` sites). -/
inductive GeomError where
  | emptyInput
  | unsupportedCollectType
  | invalidGeometry
  | noneInput
  | assertNotPolygonal
  | langNoValue
  | indexOutOfRange
  | notAPolygonChild
deriving DecidableEq, Repr

/-- The empty geometry of the base tag of a primitive type
(`sh_geom.Point()` / `sh_geom.LineString()` / `sh_geom.Polygon()`). -/
def emptyOf : PrimitiveType → Geometry
  | .point => .point none
  | .lineString => .lineString []
  | .polygon => .polygon [] []

/-- `collect(geometry_list)` from the source: filter out `None` entries,
fail on an empty remainder, return a singleton unwrapped, otherwise compute
the uniform tag (the first element's tag if all tags agree, else
GeometryCollection) and dispatch on it.  A uniform Multi* tag reaches the
final failure branch (`raise Exception("Unsupported geometry type: ...")`). -/
def collect (geometry_list : List (Option Geometry)) : Except GeomError Geometry :=
  match geometry_list.filterMap id with
  | [] => .error .emptyInput
  | [g] => .ok g
  | g0 :: g1 :: rest =>
    let l := g0 :: g1 :: rest
    let result_collection_type :=
      if l.all (fun geom => decide (geomType geom = geomType g0)) then geomType g0
      else GeometryType.geometryCollection
    match result_collection_type with
    | .point => .ok (.multiPoint l)
    | .lineString => .ok (.multiLineString l)
    | .polygon => .ok (.multiPolygon l)
    | .geometryCollection => .ok (.geometryCollection l)
    | _ => .error .unsupportedCollectType

mutual

/-- `collection_extract(geometry, primitivetype)` from the source: a
geometry whose primitive bucket matches is returned unchanged; a
GeometryCollection recurses into every child, appending every child result
(empty results included) and `collect`ing them when the list is non-empty;
otherwise an empty geometry of the requested primitive type is returned. -/
def collection_extract (geometry : Geometry) (primitivetype : PrimitiveType) :
    Except GeomError Geometry :=
  match geometry with
  | .point c =>
    if primitivetype = PrimitiveType.point then .ok (.point c)
    else .ok (emptyOf primitivetype)
  | .multiPoint ps =>
    if primitivetype = PrimitiveType.point then .ok (.multiPoint ps)
    else .ok (emptyOf primitivetype)
  | .lineString cs =>
    if primitivetype = PrimitiveType.lineString then .ok (.lineString cs)
    else .ok (emptyOf primitivetype)
  | .multiLineString ps =>
    if primitivetype = PrimitiveType.lineString then .ok (.multiLineString ps)
    else .ok (emptyOf primitivetype)
  | .polygon s h =>
    if primitivetype = PrimitiveType.polygon then .ok (.polygon s h)
    else .ok (emptyOf primitivetype)
  | .multiPolygon ps =>
    if primitivetype = PrimitiveType.polygon then .ok (.multiPolygon ps)
    else .ok (emptyOf primitivetype)
  | .geometryCollection children =>
    match collection_extract_list children primitivetype with
    | .error e => .error e
    | .ok returngeoms =>
      if returngeoms.length > 0 then collect (returngeoms.map some)
      else .ok (emptyOf primitivetype)

/-- The `for geometry in ...: returngeoms.append(collection_extract(...))`
loop of the GeometryCollection branch, with left-to-right error propagation. -/
def collection_extract_list (l : List Geometry) (p : PrimitiveType) :
    Except GeomError (List Geometry) :=
  match l with
  | [] => .ok []
  | g :: gs =>
    match collection_extract g p with
    | .error e => .error e
    | .ok r =>
      match collection_extract_list gs p with
      | .error e => .error e
      | .ok rs => .ok (r :: rs)

end

/-- `collection_extract_polygon` from the source: extract polygons, then
assert the result is a Polygon or MultiPolygon. -/
def collection_extract_polygon (geometry : Geometry) : Except GeomError Geometry :=
  match collection_extract geometry PrimitiveType.polygon with
  | .error e => .error e
  | .ok extracted =>
    match geomType extracted with
    | .polygon => .ok extracted
    | .multiPolygon => .ok extracted
    | _ => .error .assertNotPolygonal

/-! ## Ring filter (`remove_inner_rings`) -/

/-- External collaborators of the module, as a narrow interface (the spec's
`IndexSelector` / `ValidityRepairer` / `GeometryPredicate` design note):
`make_valid` is `pygeos.make_valid`, `rdp_idx` and `vw_idx` are
`simplification.cutil.simplify_coords_idx` / `simplify_coords_vw_idx`,
`intersects` is the geopandas point-intersects predicate used for
`keep_points_on`, and `ring_area` is `sh_ops.Polygon(ring).area`. -/
structure Kernel where
  make_valid : Geometry → Geometry
  rdp_idx : List Coord → Rat → List Nat
  vw_idx : List Coord → Rat → List Nat
  intersects : Coord → Geometry → Bool
  ring_area : List Coord → Rat

/-- Inner helper `remove_inner_rings_polygon` of `remove_inner_rings`:
with `min_area_to_keep` absent or `0` drop every hole (returning the input
itself when there are none); otherwise drop exactly the holes whose
unsigned ring area is at most the threshold, returning the input itself
when no hole was small. -/
def remove_inner_rings_polygon (K : Kernel) (shell : List Coord)
    (holes : List (List Coord)) (min_area_to_keep : Option Rat) : Geometry :=
  match min_area_to_keep with
  | none =>
    if holes = [] then .polygon shell holes else .polygon shell []
  | some a =>
    if a = 0 then
      (if holes = [] then .polygon shell holes else .polygon shell [])
    else
      let small_ring_found := holes.any fun ring => decide (|K.ring_area ring| ≤ a)
      let ring_coords_to_keep := holes.filter fun ring => !decide (|K.ring_area ring| ≤ a)
      if small_ring_found = false then .polygon shell holes
      else .polygon shell ring_coords_to_keep

/-- `remove_inner_rings(geometry, min_area_to_keep)` from the source:
fails on a null input, applies `remove_inner_rings_polygon` to a Polygon,
maps it over the children of a MultiPolygon, and fails on any other tag. -/
def remove_inner_rings (K : Kernel) (geometry : Option Geometry)
    (min_area_to_keep : Option Rat) : Except GeomError Geometry :=
  match geometry with
  | none => .error .noneInput
  | some (.polygon shell holes) =>
    .ok (remove_inner_rings_polygon K shell holes min_area_to_keep)
  | some (.multiPolygon parts) =>
    match parts.mapM (fun g =>
        match g with
        | .polygon shell holes =>
          Except.ok (remove_inner_rings_polygon K shell holes min_area_to_keep)
        | _ => Except.error GeomError.notAPolygonChild) with
    | .error e => .error e
    | .ok polys => .ok (.multiPolygon polys)
  | some _ => .error .invalidGeometry

/-! ## Lang sliding-window algorithm (`simplify_coords_lang_idx`)

The source's `while` loop is modelled as a step function `langStep` on an
explicit state, iterated by a fuel-indexed runner `langLoop`; for the valid
lookahead values the development proves that a concrete fuel suffices, and
for `lookahead = 0` it proves that the initial state is a fixed point of
the step function, i.e. the loop never exits. -/

/-- Exact-arithmetic rendering of the source's `point_line_distance`
comparison.  The source computes `abs(cross) / sqrt(d2)` in floats and the
window point fails when that distance `isnan` (`d2 = 0` with `cross = 0`)
or exceeds `tolerance`; `d2 = 0` with `cross` nonzero yields `inf`, which
also exceeds any finite tolerance.  Over exact numbers:
`d2 = 0` always fails, and otherwise `|cross|/sqrt d2 > tol` holds exactly
when `tol < 0` or `cross^2 > tol^2 * d2`. -/
def point_line_fails (point lp1 lp2 : Coord) (tolerance : Rat) : Bool :=
  let dx := lp2.1 - lp1.1
  let dy := lp2.2 - lp1.2
  let cross := dx * (lp1.2 - point.2) - (lp1.1 - point.1) * dy
  let d2 := dx * dx + dy * dy
  if d2 = 0 then true
  else decide (tolerance < 0) || decide (cross * cross > tolerance * tolerance * d2)

/-- The inner `for i in range(window_start+1, window_end)` check: true when
some strictly interior point of the window fails the distance test. -/
def windowFails (coords : List Coord) (tolerance : Rat)
    (window_start window_end : Nat) : Bool :=
  (List.range' (window_start + 1) (window_end - (window_start + 1))).any fun i =>
    point_line_fails (coords.getD i (0, 0)) (coords.getD window_start (0, 0))
      (coords.getD window_end (0, 0)) tolerance

/-- The mutable state of the source's `while ready is False` loop. -/
structure LangState where
  mask : List Bool
  window_start : Nat
  window_end : Nat
  ready : Bool
deriving DecidableEq, Repr

/-- One iteration of the loop body: on failure shrink the window by one;
on success mark `window_end`, move `window_start` there, set `ready` when
the start reached the last point, and advance `window_end` by the window
size, clamped to the last index. -/
def langStep (coords : List Coord) (tolerance : Rat) (window_size : Nat)
    (st : LangState) : LangState :=
  if windowFails coords tolerance st.window_start st.window_end then
    { st with window_end := st.window_end - 1 }
  else
    { mask := st.mask.set st.window_end true
      window_start := st.window_end
      window_end := min (st.window_end + window_size) (coords.length - 1)
      ready := decide (st.window_end = coords.length - 1) }

/-- Fuel-indexed runner of the loop: performs up to `fuel` iterations,
stopping as soon as `ready` is set. -/
def langLoop (coords : List Coord) (tolerance : Rat) (window_size : Nat) :
    Nat → LangState → LangState
  | 0, st => st
  | fuel + 1, st =>
    if st.ready then st
    else langLoop coords tolerance window_size fuel (langStep coords tolerance window_size st)

/-- `window_size` initialisation: `nb_points - 1` for `lookahead == -1`,
else `min(lookahead, nb_points - 1)` (python int arithmetic, clamped to
`Nat` for the state). -/
def langWindowSize (lookahead : Int) (nb_points : Nat) : Nat :=
  (if lookahead = -1 then (nb_points : Int) - 1
   else min lookahead ((nb_points : Int) - 1)).toNat

/-- Checked list update, modelling a numpy array element assignment:
assigning at an index beyond the array raises `IndexError`. -/
def listSet? (l : List Bool) (i : Nat) (b : Bool) : Option (List Bool) :=
  if i < l.length then some (l.set i b) else none

/-- Initialisation before the loop: `mask = np.zeros(nb_points); mask[0] =
True; window_start = 0; window_end = window_size`.  The `mask[0] = True`
assignment is out of bounds when the coordinate sequence is empty. -/
def langInit (coords : List Coord) (lookahead : Int) : Option LangState :=
  match listSet? (List.replicate coords.length false) 0 true with
  | none => none
  | some mask =>
    some { mask := mask, window_start := 0,
           window_end := langWindowSize lookahead coords.length, ready := false }

/-- A fuel budget sufficient for every terminating run of the loop
(proved below): the loop measure is bounded by `n * n + n`. -/
def langFuel (n : Nat) : Nat := n * n + n + 1

/-- `mask.nonzero()[0]`: the ascending list of indices at which the mask
is set. -/
def langExtract (mask : List Bool) : List Nat :=
  (List.range mask.length).filter fun i => mask.getD i false

/-- `simplify_coords_lang_idx(coords, tolerance, lookahead)` from the
source.  `none` models the function not returning normally: either the
initial `mask[0] = True` raises `IndexError` (empty input), or the loop
fails to reach `ready` within the fuel budget (which is proved sufficient
whenever the loop terminates at all for the claimed lookahead values). -/
def simplify_coords_lang_idx (coords : List Coord) (tolerance : Rat)
    (lookahead : Int) : Option (List Nat) :=
  match langInit coords lookahead with
  | none => none
  | some st =>
    let final := langLoop coords tolerance (langWindowSize lookahead coords.length)
      (langFuel coords.length) st
    if final.ready then some (langExtract final.mask) else none

/-- `simplify_coords_lang(coords, tolerance, lookahead)` from the source,
indexed by the recursion depth available.  The source's body computes
`coords_to_keep_idx` by calling `simplify_coords_lang` itself (not
`simplify_coords_lang_idx`), so every call immediately recurses with the
same coordinates; the subsequent `coords_arr[coords_to_keep_idx]` indexing
is unreachable and the value, were it ever produced, is passed through
unchanged here.  `none` at fuel `0` models the exhausted call stack. -/
def simplify_coords_lang (fuel : Nat) (coords : List Coord) (tolerance : Rat)
    (lookahead : Int) : Option (List Coord) :=
  match fuel with
  | 0 => none
  | fuel + 1 =>
    match simplify_coords_lang fuel coords tolerance lookahead with
    | none => none
    | some coords_to_keep_idx => some coords_to_keep_idx

/-! ## Simplification engine (`simplify_ext`) -/

/-- The enum `SimplifyAlgorithm` from the source. -/
inductive SimplifyAlgorithm where
  | ramer_douglas_peucker
  | lang
  | visvalingam_whyatt
deriving DecidableEq, Repr

/-- Sorted duplicate-free insertion, the building block used to model
python's `sorted(set(...))`. -/
def insertSortedDedup (x : Nat) : List Nat → List Nat
  | [] => [x]
  | y :: ys =>
    if x < y then x :: y :: ys
    else if x = y then y :: ys
    else y :: insertSortedDedup x ys

/-- `sorted(set(l))`: the strictly ascending list of the distinct elements
of `l`. -/
def dedupSortIdx (l : List Nat) : List Nat := l.foldr insertSortedDedup []

/-- Step 1 of `simplify_coords`: the base retained-index set, from the
external index-selection library for RDP and VW and from the local Lang
algorithm otherwise.  A Lang run that does not return normally (see
`simplify_coords_lang_idx`) propagates as an error. -/
def coords_simplify_idx (K : Kernel) (algorithm : SimplifyAlgorithm)
    (coords : List Coord) (tolerance : Rat) (lookahead : Int) :
    Except GeomError (List Nat) :=
  match algorithm with
  | .ramer_douglas_peucker => .ok (K.rdp_idx coords tolerance)
  | .visvalingam_whyatt => .ok (K.vw_idx coords tolerance)
  | .lang =>
    match simplify_coords_lang_idx coords tolerance lookahead with
    | some idx => .ok idx
    | none => .error .langNoValue

/-- Step 2 of `simplify_coords`: the indices of the original coordinates
whose point intersects `keep_points_on` (empty when no mask geometry is
supplied). -/
def coords_on_border_idx (K : Kernel) (keep_points_on : Option Geometry)
    (coords : List Coord) : List Nat :=
  match keep_points_on with
  | none => []
  | some g => (List.range coords.length).filter fun i => K.intersects (coords.getD i (0, 0)) g

/-- The inner `simplify_coords` of `simplify_ext`: base indices from the
chosen algorithm, forced-survival indices from `keep_points_on`, then
`coords_to_keep = sorted(set(base + border))` and the output sequence is
the original coordinates indexed at those positions (`np.array(coords)[...]`,
which raises on an out-of-range index). -/
def simplify_coords (K : Kernel) (algorithm : SimplifyAlgorithm) (tolerance : Rat)
    (lookahead : Int) (keep_points_on : Option Geometry) (coords : List Coord) :
    Except GeomError (List Coord) :=
  match coords_simplify_idx K algorithm coords tolerance lookahead with
  | .error e => .error e
  | .ok idx =>
    let coords_to_keep := dedupSortIdx (idx ++ coords_on_border_idx K keep_points_on coords)
    if coords_to_keep.all (· < coords.length) then
      .ok (coords_to_keep.map fun i => coords.getD i (0, 0))
    else .error .indexOutOfRange

/-- The inner `simplify_linestring` of `simplify_ext`: a line with at most
two coordinates is returned unchanged; otherwise the retention step runs,
and with `preserve_topology` a result with fewer than two coordinates is
discarded in favour of the original line. -/
def simplify_linestring (K : Kernel) (algorithm : SimplifyAlgorithm) (tolerance : Rat)
    (lookahead : Int) (preserve_topology : Bool) (keep_points_on : Option Geometry)
    (coords : List Coord) : Except GeomError Geometry :=
  if coords.length ≤ 2 then .ok (.lineString coords)
  else
    match simplify_coords K algorithm tolerance lookahead keep_points_on coords with
    | .error e => .error e
    | .ok coords_simplified =>
      if preserve_topology && decide (coords_simplified.length < 2) then
        .ok (.lineString coords)
      else .ok (.lineString coords_simplified)

/-- The interior-ring loop of the inner `simplify_polygon`: a simplified
ring with at least three coordinates is kept; a degenerate one is replaced
by the original ring under `preserve_topology` and dropped otherwise. -/
def simplify_polygon_holes (K : Kernel) (algorithm : SimplifyAlgorithm) (tolerance : Rat)
    (lookahead : Int) (preserve_topology : Bool) (keep_points_on : Option Geometry) :
    List (List Coord) → Except GeomError (List (List Coord))
  | [] => .ok []
  | interior :: rest =>
    match simplify_coords K algorithm tolerance lookahead keep_points_on interior with
    | .error e => .error e
    | .ok interior_simplified =>
      match simplify_polygon_holes K algorithm tolerance lookahead preserve_topology
          keep_points_on rest with
      | .error e => .error e
      | .ok rest_simplified =>
        if 3 ≤ interior_simplified.length then .ok (interior_simplified :: rest_simplified)
        else if preserve_topology then .ok (interior :: rest_simplified)
        else .ok rest_simplified

/-- The inner `simplify_polygon` of `simplify_ext`: simplify the exterior
and every interior ring, rebuild the polygon, and under `preserve_topology`
repair it and keep only its polygonal parts
(`collection_extract_polygon(make_valid(result_poly))`). -/
def simplify_polygon (K : Kernel) (algorithm : SimplifyAlgorithm) (tolerance : Rat)
    (lookahead : Int) (preserve_topology : Bool) (keep_points_on : Option Geometry)
    (shell : List Coord) (holes : List (List Coord)) : Except GeomError Geometry :=
  match simplify_coords K algorithm tolerance lookahead keep_points_on shell with
  | .error e => .error e
  | .ok exterior_simplified =>
    match simplify_polygon_holes K algorithm tolerance lookahead preserve_topology
        keep_points_on holes with
    | .error e => .error e
    | .ok interiors_simplified =>
      let result_poly := Geometry.polygon exterior_simplified interiors_simplified
      if preserve_topology then collection_extract_polygon (K.make_valid result_poly)
      else .ok result_poly

mutual

/-- `simplify_ext(geometry, tolerance, algorithm, lookahead,
preserve_topology, keep_points_on)` from the source: Point and MultiPoint
are returned untouched (without validity repair); a LineString or Polygon
is simplified by the dedicated helper; any other multi-part geometry is
simplified child by child and recollected; every result of the latter three
branches is passed through `make_valid`. -/
def simplify_ext (K : Kernel) (tolerance : Rat) (algorithm : SimplifyAlgorithm)
    (lookahead : Int) (preserve_topology : Bool) (keep_points_on : Option Geometry) :
    Geometry → Except GeomError Geometry
  | .point c => .ok (.point c)
  | .multiPoint ps => .ok (.multiPoint ps)
  | .lineString cs =>
    (simplify_linestring K algorithm tolerance lookahead preserve_topology
      keep_points_on cs).map K.make_valid
  | .polygon shell holes =>
    (simplify_polygon K algorithm tolerance lookahead preserve_topology
      keep_points_on shell holes).map K.make_valid
  | .multiLineString ps =>
    (simplify_ext_parts K tolerance algorithm lookahead preserve_topology keep_points_on ps).map
      K.make_valid
  | .multiPolygon ps =>
    (simplify_ext_parts K tolerance algorithm lookahead preserve_topology keep_points_on ps).map
      K.make_valid
  | .geometryCollection ps =>
    (simplify_ext_parts K tolerance algorithm lookahead preserve_topology keep_points_on ps).map
      K.make_valid

/-- The multi-part branch of `simplify_ext`: recursively simplify every
child with identical parameters, then `collect` the results. -/
def simplify_ext_parts (K : Kernel) (tolerance : Rat) (algorithm : SimplifyAlgorithm)
    (lookahead : Int) (preserve_topology : Bool) (keep_points_on : Option Geometry)
    (parts : List Geometry) : Except GeomError Geometry :=
  match simplify_ext_list K tolerance algorithm lookahead preserve_topology
      keep_points_on parts with
  | .error e => .error e
  | .ok simplified_geometries => collect (simplified_geometries.map some)

/-- The `for geom in geometry` loop of the multi-part branch. -/
def simplify_ext_list (K : Kernel) (tolerance : Rat) (algorithm : SimplifyAlgorithm)
    (lookahead : Int) (preserve_topology : Bool) (keep_points_on : Option Geometry) :
    List Geometry → Except GeomError (List Geometry)
  | [] => .ok []
  | g :: gs =>
    match simplify_ext K tolerance algorithm lookahead preserve_topology keep_points_on g with
    | .error e => .error e
    | .ok r =>
      match simplify_ext_list K tolerance algorithm lookahead preserve_topology
          keep_points_on gs with
      | .error e => .error e
      | .ok rs => .ok (r :: rs)

end

/-- A concrete instantiation of the external collaborators, used to
exercise the engine on closed inputs: validity repair is the identity,
both external index selectors keep the first and last index, the
intersection predicate is coordinate equality with a point mask, and the
ring area is the ring's length. -/
def testKernel : Kernel where
  make_valid := id
  rdp_idx := fun coords _ => dedupSortIdx [0, coords.length - 1]
  vw_idx := fun coords _ => dedupSortIdx [0, coords.length - 1]
  intersects := fun c g =>
    match g with
    | .point (some c2) => decide (c = c2)
    | _ => false
  ring_area := fun ring => (ring.length : Rat)

/-- A concrete three collinear points sequence. -/
def exCoords3 : List Coord := [((0 : Rat), (0 : Rat)), ((1 : Rat), (0 : Rat)), ((2 : Rat), (0 : Rat))]

/-- A concrete mask point sitting on the middle coordinate of `exCoords3`. -/
def exKeepPoint : Geometry := .point (some ((1 : Rat), (0 : Rat)))

/-- The single-geometry tag of a primitive bucket. -/
def baseTag : PrimitiveType → GeometryType
  | .point => .point
  | .lineString => .lineString
  | .polygon => .polygon

/-- The Multi* tag of a primitive bucket. -/
def multiTag : PrimitiveType → GeometryType
  | .point => .multiPoint
  | .lineString => .multiLineString
  | .polygon => .multiPolygon

/-! ## Loop invariant and measure for the Lang loop -/

/-- The termination measure of the Lang loop: failure steps shrink the
window, success steps advance its start. -/
def langMeasure (n : Nat) (st : LangState) : Nat :=
  (n - 1 - st.window_start) * n + st.window_end

/-- The loop invariant of the Lang loop over a coordinate sequence of
length `n`: the mask keeps its length, both window bounds stay within the
index range, index `0` stays marked, a ready state has the last index
marked, and a non-ready state has a non-degenerate window unless the start
already sits on the last index. -/
def LangInv (n : Nat) (st : LangState) : Prop :=
  st.mask.length = n ∧
  st.window_start ≤ n - 1 ∧
  st.window_end ≤ n - 1 ∧
  st.mask.getD 0 false = true ∧
  (st.ready = true → st.mask.getD (n - 1) false = true) ∧
  (st.ready = false → st.window_start < st.window_end ∨
    (st.window_start = st.window_end ∧ st.window_start = n - 1))

/-! ## Concrete example geometries, used by closed counterexamples and
witnesses -/

/-- A concrete non-empty point. -/
def exPoint : Geometry := .point (some ((0 : Rat), (0 : Rat)))

/-- A concrete two-point line. -/
def exLine : Geometry := .lineString [((0 : Rat), (0 : Rat)), ((1 : Rat), (1 : Rat))]

/-- A concrete triangle polygon without holes. -/
def exPoly : Geometry :=
  .polygon [((0 : Rat), (0 : Rat)), ((1 : Rat), (0 : Rat)), ((1 : Rat), (1 : Rat)),
    ((0 : Rat), (0 : Rat))] []

/-- A concrete single-element MultiPoint. -/
def exMultiPointA : Geometry := .multiPoint [.point (some ((0 : Rat), (0 : Rat)))]

/-- A second concrete single-element MultiPoint. -/
def exMultiPointB : Geometry := .multiPoint [.point (some ((2 : Rat), (2 : Rat)))]

/-! ## Helper lemmas -/

theorem filterMap_id_map_some (l : List Geometry) : (l.map some).filterMap id = l := by
  induction l with
  | nil => rfl
  | cons g gs ih => simp [ih]

theorem getD_set_self (l : List Bool) (i : Nat) (b d : Bool) (h : i < l.length) :
    (l.set i b).getD i d = b := by
  induction l generalizing i with
  | nil => simp at h
  | cons x xs ih =>
    cases i with
    | zero => rfl
    | succ j => simpa using ih j (by simpa using h)

theorem getD_set_of_ne (l : List Bool) (i j : Nat) (hij : i ≠ j) (b d : Bool) :
    (l.set i b).getD j d = l.getD j d := by
  induction l generalizing i j with
  | nil => rfl
  | cons x xs ih =>
    cases i with
    | zero =>
      cases j with
      | zero => exact absurd rfl hij
      | succ j2 => rfl
    | succ i2 =>
      cases j with
      | zero => rfl
      | succ j2 => simpa using ih i2 j2 (fun h => hij (by simp [h]))

/-- Unfolding of `collect` on a two-or-more element list of non-null
geometries. -/
theorem collect_cons2 (g0 g1 : Geometry) (rest : List Geometry) :
    collect ((g0 :: g1 :: rest).map some) =
      (match (if (g0 :: g1 :: rest).all (fun geom => decide (geomType geom = geomType g0))
          then geomType g0 else GeometryType.geometryCollection) with
        | .point => .ok (.multiPoint (g0 :: g1 :: rest))
        | .lineString => .ok (.multiLineString (g0 :: g1 :: rest))
        | .polygon => .ok (.multiPolygon (g0 :: g1 :: rest))
        | .geometryCollection => .ok (.geometryCollection (g0 :: g1 :: rest))
        | _ => .error .unsupportedCollectType) := by
  have h : ((g0 :: g1 :: rest).map some).filterMap id = g0 :: g1 :: rest :=
    filterMap_id_map_some _
  simp only [collect, h]

/-! ## Claims about `collect` (C2) -/

/-- Claim C2 (counterexample): `collect` applied to two geometries that both
carry the exact tag MultiPoint does not return a MultiPoint of the two
elements; it reaches the unsupported-geometry-type failure branch. -/
theorem claim2_counterexample :
    collect [some exMultiPointA, some exMultiPointB] = .error .unsupportedCollectType ∧
      collect [some exMultiPointA, some exMultiPointB] ≠
        .ok (.multiPoint [exMultiPointA, exMultiPointB]) := by
  have h1 : collect [some exMultiPointA, some exMultiPointB] =
      .error .unsupportedCollectType := by
    rfl
  refine ⟨h1, ?_⟩
  rw [h1]
  simp

/-- Claim C2 (amended): for every list of two or more non-null geometries
that all share the same exact Multi* tag, `collect` computes that tag as
the uniform collection type, but the dispatch only handles the exact tags
Point, LineString, Polygon and GeometryCollection, so it raises the
unsupported-geometry-type error instead of building the corresponding
Multi* geometry. -/
theorem claim2_amended_uniform_multi_tag_errors (l : List Geometry) (t : GeometryType)
    (hlen : 2 ≤ l.length) (htag : ∀ g ∈ l, geomType g = t)
    (hmulti : t = .multiPoint ∨ t = .multiLineString ∨ t = .multiPolygon) :
    collect (l.map some) = .error .unsupportedCollectType := by
  match l, hlen with
  | g0 :: g1 :: rest, _ =>
    have h0 : geomType g0 = t := htag g0 (by simp)
    have hall : (g0 :: g1 :: rest).all
        (fun geom => decide (geomType geom = geomType g0)) = true := by
      rw [List.all_eq_true]
      intro g hg
      have h1 : geomType g = t := htag g hg
      simp [h1, h0]
    rw [collect_cons2, hall]
    rcases hmulti with h | h | h <;> rw [h0, h] <;> rfl

/-- Claim C2 (witness for the amended claim): instantiation at a concrete
two-element all-MultiPoint list. -/
theorem claim2_witness :
    (2 ≤ ([exMultiPointA, exMultiPointB] : List Geometry).length ∧
      (∀ g ∈ ([exMultiPointA, exMultiPointB] : List Geometry),
        geomType g = GeometryType.multiPoint) ∧
      (GeometryType.multiPoint = GeometryType.multiPoint ∨
        GeometryType.multiPoint = GeometryType.multiLineString ∨
        GeometryType.multiPoint = GeometryType.multiPolygon)) ∧
    collect (([exMultiPointA, exMultiPointB] : List Geometry).map some) =
      .error .unsupportedCollectType := by
  have htag : ∀ g ∈ ([exMultiPointA, exMultiPointB] : List Geometry),
      geomType g = GeometryType.multiPoint := by
    intro g hg
    simp only [List.mem_cons, List.not_mem_nil, or_false] at hg
    rcases hg with h | h
    · subst h; rfl
    · subst h; rfl
  exact ⟨⟨by simp, htag, Or.inl rfl⟩,
    claim2_amended_uniform_multi_tag_errors _ GeometryType.multiPoint (by simp) htag
      (Or.inl rfl)⟩

/-! ## Claims about `collection_extract` on collections (C3) -/

/-- Claim C3 (counterexample): extracting the Polygon primitive from
`GeometryCollection([Point, LineString, Polygon])` does not return the
contained Polygon unwrapped. -/
theorem claim3_counterexample :
    collection_extract (.geometryCollection [exPoint, exLine, exPoly]) .polygon ≠
      .ok exPoly := by
  simp [collection_extract, collection_extract_list, collect, emptyOf, geomType,
    exPoint, exLine, exPoly]

/-- Claim C3 (amended): on a GeometryCollection, `collection_extract`
recurses into each child but collects every extraction result, the empty
ones included; the scenario therefore returns a MultiPolygon holding two
empty polygons and the contained Polygon, not the unwrapped Polygon. -/
theorem claim3_amended_scenario :
    collection_extract (.geometryCollection [exPoint, exLine, exPoly]) .polygon =
      .ok (.multiPolygon [.polygon [] [], .polygon [] [], exPoly]) := by
  simp [collection_extract, collection_extract_list, collect, emptyOf, geomType,
    exPoint, exLine, exPoly]

/-! ## Claims about the Lang wrapper and edge cases (C8, C9, C10) -/

/-- Claim C8: `simplify_coords_lang` never returns a value: its body calls
itself recursively (instead of `simplify_coords_lang_idx`) with the same
coordinates, so for every available recursion depth the call produces no
result. -/
theorem claim8_simplify_coords_lang_never_returns (fuel : Nat) (coords : List Coord)
    (tolerance : Rat) (lookahead : Int) :
    simplify_coords_lang fuel coords tolerance lookahead = none := by
  induction fuel with
  | zero => rfl
  | succ n ih => simp [simplify_coords_lang, ih]

/-- Claim C10: on an empty coordinate sequence the initial `mask[0] = True`
assignment is out of bounds (the mask has length `0`), so
`simplify_coords_lang_idx` fails instead of returning an index list. -/
theorem claim10_lang_idx_empty_input_fails (tolerance : Rat) (lookahead : Int) :
    simplify_coords_lang_idx [] tolerance lookahead = none ∧
      listSet? (List.replicate ([] : List Coord).length false) 0 true = none ∧
      ∀ idxs, simplify_coords_lang_idx [] tolerance lookahead ≠ some idxs := by
  exact ⟨rfl, rfl, fun idxs h => by cases h⟩

/-- Claim C9: with at least two points and `lookahead = 0` the window size
is `0`, the very first window succeeds vacuously and leaves the state
unchanged, so the loop repeats the same non-ready state forever and
`simplify_coords_lang_idx` never produces a result. -/
theorem claim9_lang_idx_lookahead_zero_diverges (coords : List Coord) (tolerance : Rat)
    (h2 : 2 ≤ coords.length) :
    ∃ st0, langInit coords 0 = some st0 ∧ st0.ready = false ∧
      langStep coords tolerance (langWindowSize 0 coords.length) st0 = st0 ∧
      (∀ fuel, langLoop coords tolerance (langWindowSize 0 coords.length) fuel st0 = st0) ∧
      simplify_coords_lang_idx coords tolerance 0 = none := by
  have hws : langWindowSize 0 coords.length = 0 := by
    simp only [langWindowSize]
    have hne : ¬((0 : Int) = -1) := by decide
    rw [if_neg hne]
    have hmin : min (0 : Int) ((coords.length : Int) - 1) = 0 := by omega
    rw [hmin]
    rfl
  set st0 : LangState :=
    { mask := (List.replicate coords.length false).set 0 true,
      window_start := 0, window_end := 0, ready := false } with hst0
  have hinit : langInit coords 0 = some st0 := by
    simp [langInit, listSet?, hws, if_pos (by omega : 0 < coords.length), hst0]
  have hstep : langStep coords tolerance (langWindowSize 0 coords.length) st0 = st0 := by
    have hfail : windowFails coords tolerance 0 0 = false := by
      simp [windowFails]
    have hready : decide ((0 : Nat) = coords.length - 1) = false := by
      simp
      omega
    simp [langStep, hst0, hfail, hws, List.set_set, hready]
  have hloop : ∀ fuel,
      langLoop coords tolerance (langWindowSize 0 coords.length) fuel st0 = st0 := by
    intro fuel
    induction fuel with
    | zero => rfl
    | succ n ih =>
      show (if st0.ready then st0
        else langLoop coords tolerance (langWindowSize 0 coords.length) n
          (langStep coords tolerance (langWindowSize 0 coords.length) st0)) = st0
      rw [hstep, ih, if_neg (by simp [hst0])]
  have hidx : simplify_coords_lang_idx coords tolerance 0 = none := by
    simp only [simplify_coords_lang_idx, hinit, hloop (langFuel coords.length)]
    simp [hst0]
  exact ⟨st0, hinit, rfl, hstep, hloop, hidx⟩

/-! ## Claims about the ring filter (C6) -/

/-- Claim C6: for a Polygon and a positive threshold, `remove_inner_rings`
drops exactly the interior rings whose unsigned area is at most the
threshold, keeping the others in their original order, and when no ring is
dropped the polygon comes back unchanged. -/
theorem claim6_remove_inner_rings_filter (K : Kernel) (shell : List Coord)
    (holes : List (List Coord)) (a : Rat) (ha : 0 < a) :
    remove_inner_rings K (some (.polygon shell holes)) (some a) =
      .ok (.polygon shell (holes.filter fun ring => !decide (|K.ring_area ring| ≤ a))) ∧
    ((∀ ring ∈ holes, ¬(|K.ring_area ring| ≤ a)) →
      remove_inner_rings K (some (.polygon shell holes)) (some a) =
        .ok (.polygon shell holes)) := by
  have hzero : ¬(a = 0) := fun h => absurd (h ▸ ha) (lt_irrefl 0)
  have hmain : remove_inner_rings K (some (.polygon shell holes)) (some a) =
      .ok (.polygon shell (holes.filter fun ring => !decide (|K.ring_area ring| ≤ a))) := by
    simp only [remove_inner_rings, remove_inner_rings_polygon, if_neg hzero]
    cases hany : holes.any (fun ring => decide (|K.ring_area ring| ≤ a)) with
    | true => simp
    | false =>
      have hkeep : (holes.filter fun ring => !decide (|K.ring_area ring| ≤ a)) = holes := by
        rw [List.filter_eq_self]
        intro ring hring
        rw [List.any_eq_false] at hany
        simpa using hany ring hring
      simp [hkeep]
  refine ⟨hmain, fun hnone => hmain.trans ?_⟩
  have hkeep : (holes.filter fun ring => !decide (|K.ring_area ring| ≤ a)) = holes := by
    rw [List.filter_eq_self]
    intro ring hring
    simpa using hnone ring hring
  rw [hkeep]

/-- Claim C6 (witness): with the concrete kernel (ring area given by ring
length), a threshold of `2` drops the one-point hole and keeps the
four-point hole. -/
theorem claim6_witness :
    (0 : Rat) < 2 ∧
      remove_inner_rings testKernel
          (some (.polygon [((0 : Rat), (0 : Rat)), ((9 : Rat), (0 : Rat)),
            ((9 : Rat), (9 : Rat)), ((0 : Rat), (0 : Rat))]
            [[((1 : Rat), (1 : Rat))],
             [((2 : Rat), (2 : Rat)), ((3 : Rat), (2 : Rat)), ((3 : Rat), (3 : Rat)),
              ((2 : Rat), (2 : Rat))]]))
          (some 2) =
        .ok (.polygon [((0 : Rat), (0 : Rat)), ((9 : Rat), (0 : Rat)),
          ((9 : Rat), (9 : Rat)), ((0 : Rat), (0 : Rat))]
          [[((2 : Rat), (2 : Rat)), ((3 : Rat), (2 : Rat)), ((3 : Rat), (3 : Rat)),
            ((2 : Rat), (2 : Rat))]]) := by
  constructor
  · norm_num
  · refine (claim6_remove_inner_rings_filter testKernel _ _ 2 (by norm_num)).1.trans ?_
    have h1 : |testKernel.ring_area [((1 : Rat), (1 : Rat))]| ≤ 2 := by
      simp [testKernel]
    have h2 : ¬(|testKernel.ring_area [((2 : Rat), (2 : Rat)), ((3 : Rat), (2 : Rat)),
        ((3 : Rat), (3 : Rat)), ((2 : Rat), (2 : Rat))]| ≤ 2) := by
      simp [testKernel]
      norm_num
    simp [List.filter_cons, h2]
    exact h1

/-! ## Claims about the Lang index selection (C1) -/

theorem windowFails_true_ge (coords : List Coord) (tol : Rat) (s e : Nat)
    (h : windowFails coords tol s e = true) : s + 2 ≤ e := by
  by_contra hlt
  have h0 : e - (s + 1) = 0 := by omega
  rw [windowFails, h0] at h
  simp at h

theorem langWindowSize_le (lookahead : Int) (n : Nat) :
    langWindowSize lookahead n ≤ n - 1 := by
  unfold langWindowSize
  split
  · omega
  · have h := min_le_right lookahead ((n : Int) - 1)
    omega

theorem langWindowSize_pos (lookahead : Int) (n : Nat)
    (hla : lookahead = -1 ∨ 1 ≤ lookahead) (hn : 2 ≤ n) :
    1 ≤ langWindowSize lookahead n := by
  unfold langWindowSize
  rcases hla with h | h
  · rw [if_pos h]
    omega
  · have hne : ¬(lookahead = -1) := by omega
    rw [if_neg hne]
    have h1 : (1 : Int) ≤ min lookahead ((n : Int) - 1) := by
      rcases min_cases lookahead ((n : Int) - 1) with ⟨heq, _⟩ | ⟨heq, _⟩ <;> omega
    omega

/-- The Lang loop invariant is preserved by one non-ready iteration,
provided the window size is positive or the sequence has a single point. -/
theorem langStep_inv (coords : List Coord) (tol : Rat) (ws : Nat)
    (hn : 1 ≤ coords.length) (hw : 1 ≤ ws ∨ coords.length = 1) (st : LangState)
    (hinv : LangInv coords.length st) (hready : st.ready = false) :
    LangInv coords.length (langStep coords tol ws st) := by
  obtain ⟨hlen, hs, he, hm0, hmN, hwin⟩ := hinv
  cases hfail : windowFails coords tol st.window_start st.window_end with
  | true =>
    have hge : st.window_start + 2 ≤ st.window_end := windowFails_true_ge _ _ _ _ hfail
    have hstep : langStep coords tol ws st = { st with window_end := st.window_end - 1 } := by
      simp [langStep, hfail]
    rw [hstep]
    refine ⟨hlen, hs, (by omega : st.window_end - 1 ≤ coords.length - 1), hm0, ?_, ?_⟩
    · intro h
      rw [show ({ st with window_end := st.window_end - 1 } : LangState).ready = st.ready
        from rfl, hready] at h
      cases h
    · intro _
      left
      show st.window_start < st.window_end - 1
      omega
  | false =>
    have hstep : langStep coords tol ws st =
        { mask := st.mask.set st.window_end true
          window_start := st.window_end
          window_end := min (st.window_end + ws) (coords.length - 1)
          ready := decide (st.window_end = coords.length - 1) } := by
      simp [langStep, hfail]
    rw [hstep]
    refine ⟨?_, ?_, ?_, ?_, ?_, ?_⟩
    · show (st.mask.set st.window_end true).length = coords.length
      simpa using hlen
    · show st.window_end ≤ coords.length - 1
      exact he
    · show min (st.window_end + ws) (coords.length - 1) ≤ coords.length - 1
      exact min_le_right _ _
    · show (st.mask.set st.window_end true).getD 0 false = true
      by_cases hwe : st.window_end = 0
      · rw [hwe]
        exact getD_set_self _ 0 true false (by omega)
      · rw [getD_set_of_ne _ _ _ hwe]
        exact hm0
    · show decide (st.window_end = coords.length - 1) = true →
        (st.mask.set st.window_end true).getD (coords.length - 1) false = true
      intro h
      have hwe : st.window_end = coords.length - 1 := of_decide_eq_true h
      rw [← hwe]
      exact getD_set_self _ _ true false (by omega)
    · show decide (st.window_end = coords.length - 1) = false →
        st.window_end < min (st.window_end + ws) (coords.length - 1) ∨
          (st.window_end = min (st.window_end + ws) (coords.length - 1) ∧
            st.window_end = coords.length - 1)
      intro h
      have hwe : st.window_end ≠ coords.length - 1 := by
        intro hcontra
        rw [hcontra] at h
        simp at h
      rcases hw with hws | h1
      · left
        omega
      · exact absurd (by omega : st.window_end = coords.length - 1) hwe

/-- The Lang loop invariant is preserved by the fuelled runner. -/
theorem langLoop_inv (coords : List Coord) (tol : Rat) (ws : Nat)
    (hn : 1 ≤ coords.length) (hw : 1 ≤ ws ∨ coords.length = 1) (fuel : Nat) :
    ∀ st, LangInv coords.length st → LangInv coords.length (langLoop coords tol ws fuel st) := by
  induction fuel with
  | zero => intro st h; exact h
  | succ f ih =>
    intro st h
    show LangInv _ (if st.ready then st else langLoop coords tol ws f (langStep coords tol ws st))
    cases hr : st.ready with
    | true => simpa using h
    | false =>
      rw [if_neg (by simp)]
      exact ih _ (langStep_inv coords tol ws hn hw st h hr)

theorem langLoop_of_ready (coords : List Coord) (tol : Rat) (ws fuel : Nat)
    (st : LangState) (h : st.ready = true) : langLoop coords tol ws fuel st = st := by
  cases fuel with
  | zero => rfl
  | succ f =>
    show (if st.ready then st else langLoop coords tol ws f (langStep coords tol ws st)) = st
    rw [if_pos h]

/-- A non-ready iteration whose successor is still non-ready strictly
decreases the loop measure. -/
theorem langStep_measure (coords : List Coord) (tol : Rat) (ws : Nat)
    (hn : 1 ≤ coords.length) (st : LangState)
    (hinv : LangInv coords.length st) (hready : st.ready = false)
    (hready2 : (langStep coords tol ws st).ready = false) :
    langMeasure coords.length (langStep coords tol ws st) <
      langMeasure coords.length st := by
  obtain ⟨hlen, hs, he, hm0, hmN, hwin⟩ := hinv
  cases hfail : windowFails coords tol st.window_start st.window_end with
  | true =>
    have hge : st.window_start + 2 ≤ st.window_end := windowFails_true_ge _ _ _ _ hfail
    have hstep : langStep coords tol ws st = { st with window_end := st.window_end - 1 } := by
      simp [langStep, hfail]
    rw [hstep]
    show (coords.length - 1 - st.window_start) * coords.length + (st.window_end - 1) <
      (coords.length - 1 - st.window_start) * coords.length + st.window_end
    omega
  | false =>
    have hstep : langStep coords tol ws st =
        { mask := st.mask.set st.window_end true
          window_start := st.window_end
          window_end := min (st.window_end + ws) (coords.length - 1)
          ready := decide (st.window_end = coords.length - 1) } := by
      simp [langStep, hfail]
    rw [hstep] at hready2 ⊢
    have hwe : st.window_end ≠ coords.length - 1 := by
      intro hcontra
      have h7 : decide (st.window_end = coords.length - 1) = false := hready2
      rw [hcontra] at h7
      simp at h7
    have hslt : st.window_start < st.window_end := by
      rcases hwin hready with h | ⟨h1, h2⟩
      · exact h
      · exact absurd (by omega : st.window_end = coords.length - 1) hwe
    show (coords.length - 1 - st.window_end) * coords.length +
        min (st.window_end + ws) (coords.length - 1) <
      (coords.length - 1 - st.window_start) * coords.length + st.window_end
    have hAB : (coords.length - 1 - st.window_end) + 1 ≤
        coords.length - 1 - st.window_start := by omega
    have h5 : ((coords.length - 1 - st.window_end) + 1) * coords.length ≤
        (coords.length - 1 - st.window_start) * coords.length :=
      Nat.mul_le_mul_right _ hAB
    have h6 : ((coords.length - 1 - st.window_end) + 1) * coords.length =
        (coords.length - 1 - st.window_end) * coords.length + coords.length := by ring
    have hmin : min (st.window_end + ws) (coords.length - 1) ≤ coords.length - 1 :=
      min_le_right _ _
    omega

/-- With a positive window size (or a single point) and enough fuel, the
Lang loop reaches a ready state. -/
theorem langLoop_ready (coords : List Coord) (tol : Rat) (ws : Nat)
    (hn : 1 ≤ coords.length) (hw : 1 ≤ ws ∨ coords.length = 1) :
    ∀ fuel st, LangInv coords.length st → langMeasure coords.length st < fuel →
      (langLoop coords tol ws fuel st).ready = true := by
  intro fuel
  induction fuel with
  | zero => intro st _ hm; omega
  | succ f ih =>
    intro st hinv hm
    show (if st.ready then st else langLoop coords tol ws f (langStep coords tol ws st)).ready = true
    cases hr : st.ready with
    | true => simpa using hr
    | false =>
      rw [if_neg (by simp)]
      cases hr2 : (langStep coords tol ws st).ready with
      | true => rw [langLoop_of_ready _ _ _ _ _ hr2]; exact hr2
      | false =>
        apply ih
        · exact langStep_inv coords tol ws hn hw st hinv hr
        · have hdec := langStep_measure coords tol ws hn st hinv hr hr2
          omega

/-- The state `langInit` produces on a non-empty sequence. -/
theorem langInit_some (coords : List Coord) (lookahead : Int) (hn : 1 ≤ coords.length) :
    langInit coords lookahead = some
      { mask := (List.replicate coords.length false).set 0 true
        window_start := 0
        window_end := langWindowSize lookahead coords.length
        ready := false } := by
  have h0 : 0 < coords.length := hn
  simp [langInit, listSet?, h0]

/-- The initial state satisfies the loop invariant for the claimed
lookahead values. -/
theorem langInit_inv (coords : List Coord) (lookahead : Int) (hn : 1 ≤ coords.length)
    (hla : lookahead = -1 ∨ 1 ≤ lookahead) :
    LangInv coords.length
      { mask := (List.replicate coords.length false).set 0 true
        window_start := 0
        window_end := langWindowSize lookahead coords.length
        ready := false } := by
  refine ⟨?_, ?_, ?_, ?_, ?_, ?_⟩
  · show ((List.replicate coords.length false).set 0 true).length = coords.length
    simp
  · show 0 ≤ coords.length - 1
    omega
  · show langWindowSize lookahead coords.length ≤ coords.length - 1
    exact langWindowSize_le _ _
  · show ((List.replicate coords.length false).set 0 true).getD 0 false = true
    exact getD_set_self _ 0 true false (by simpa using hn)
  · intro h
    cases h
  · intro _
    by_cases h2 : 2 ≤ coords.length
    · left
      show 0 < langWindowSize lookahead coords.length
      exact langWindowSize_pos _ _ hla h2
    · right
      have h1 : coords.length = 1 := by omega
      have hle := langWindowSize_le lookahead coords.length
      constructor
      · show 0 = langWindowSize lookahead coords.length
        omega
      · show 0 = coords.length - 1
        omega

/-- Claim C1: for every non-empty coordinate sequence, every tolerance and
every lookahead that is `-1` or a positive integer,
`simplify_coords_lang_idx` returns an index list that is strictly
increasing and contains both `0` and `N - 1`. -/
theorem claim1_lang_idx_strictly_increasing_with_endpoints
    (coords : List Coord) (tolerance : Rat) (lookahead : Int)
    (hne : coords ≠ []) (hla : lookahead = -1 ∨ 1 ≤ lookahead) :
    ∃ idxs, simplify_coords_lang_idx coords tolerance lookahead = some idxs ∧
      List.Pairwise (· < ·) idxs ∧ 0 ∈ idxs ∧ coords.length - 1 ∈ idxs := by
  have hn : 1 ≤ coords.length := List.length_pos.mpr hne
  have hw : 1 ≤ langWindowSize lookahead coords.length ∨ coords.length = 1 := by
    by_cases h2 : 2 ≤ coords.length
    · exact Or.inl (langWindowSize_pos _ _ hla h2)
    · right; omega
  have hinit := langInit_some coords lookahead hn
  have hinv0 := langInit_inv coords lookahead hn hla
  have hwsle := langWindowSize_le lookahead coords.length
  set st0 : LangState :=
    { mask := (List.replicate coords.length false).set 0 true
      window_start := 0
      window_end := langWindowSize lookahead coords.length
      ready := false } with hst0
  set final := langLoop coords tolerance (langWindowSize lookahead coords.length)
    (langFuel coords.length) st0 with hfinal
  have hfinv : LangInv coords.length final :=
    langLoop_inv coords tolerance _ hn hw _ st0 hinv0
  have hfready : final.ready = true := by
    apply langLoop_ready coords tolerance _ hn hw _ st0 hinv0
    have hmeas : langMeasure coords.length st0 =
        (coords.length - 1) * coords.length + langWindowSize lookahead coords.length := by
      simp [langMeasure, hst0]
    have h1 : (coords.length - 1) * coords.length ≤ coords.length * coords.length :=
      Nat.mul_le_mul_right _ (Nat.sub_le _ _)
    rw [hmeas]
    unfold langFuel
    omega
  obtain ⟨hflen, _, _, hf0, hfN, _⟩ := hfinv
  have hout : simplify_coords_lang_idx coords tolerance lookahead =
      some (langExtract final.mask) := by
    simp only [simplify_coords_lang_idx, hinit]
    rw [← hfinal, if_pos hfready]
  refine ⟨langExtract final.mask, hout, ?_, ?_, ?_⟩
  · exact List.Pairwise.filter _ (List.pairwise_lt_range _)
  · refine List.mem_filter.mpr ⟨?_, hf0⟩
    rw [List.mem_range, hflen]
    omega
  · refine List.mem_filter.mpr ⟨?_, hfN hfready⟩
    rw [List.mem_range, hflen]
    omega

/-- Claim C1 (witness): a concrete three-point run with lookahead `8` and
tolerance `0` returns indices containing `0` and `2`, strictly increasing. -/
theorem claim1_witness :
    (([((0 : Rat), (0 : Rat)), ((1 : Rat), (0 : Rat)), ((2 : Rat), (0 : Rat))] : List Coord) ≠ [] ∧
      ((8 : Int) = -1 ∨ 1 ≤ (8 : Int))) ∧
    ∃ idxs, simplify_coords_lang_idx
        [((0 : Rat), (0 : Rat)), ((1 : Rat), (0 : Rat)), ((2 : Rat), (0 : Rat))] 0 8 =
          some idxs ∧
      List.Pairwise (· < ·) idxs ∧ 0 ∈ idxs ∧
      ([((0 : Rat), (0 : Rat)), ((1 : Rat), (0 : Rat)), ((2 : Rat), (0 : Rat))] :
        List Coord).length - 1 ∈ idxs := by
  refine ⟨⟨by simp, Or.inr (by norm_num)⟩, ?_⟩
  exact claim1_lang_idx_strictly_increasing_with_endpoints _ 0 8 (by simp)
    (Or.inr (by norm_num))

/-- Claim C9 (witness): the two-point divergence instantiated at a concrete
input. -/
theorem claim9_witness :
    2 ≤ (([((0 : Rat), (0 : Rat)), ((1 : Rat), (1 : Rat))]) : List Coord).length ∧
    ∃ st0, langInit [((0 : Rat), (0 : Rat)), ((1 : Rat), (1 : Rat))] 0 = some st0 ∧
      st0.ready = false ∧
      langStep [((0 : Rat), (0 : Rat)), ((1 : Rat), (1 : Rat))] 0
        (langWindowSize 0 ([((0 : Rat), (0 : Rat)), ((1 : Rat), (1 : Rat))] :
          List Coord).length) st0 = st0 ∧
      (∀ fuel, langLoop [((0 : Rat), (0 : Rat)), ((1 : Rat), (1 : Rat))] 0
        (langWindowSize 0 ([((0 : Rat), (0 : Rat)), ((1 : Rat), (1 : Rat))] :
          List Coord).length) fuel st0 = st0) ∧
      simplify_coords_lang_idx [((0 : Rat), (0 : Rat)), ((1 : Rat), (1 : Rat))] 0 0 = none := by
  refine ⟨by simp, ?_⟩
  exact claim9_lang_idx_lookahead_zero_diverges _ 0 (by simp)

/-! ## Claims about the coordinate retention step (C5) -/

theorem mem_insertSortedDedup (a x : Nat) (l : List Nat) :
    a ∈ insertSortedDedup x l ↔ a = x ∨ a ∈ l := by
  induction l with
  | nil => simp [insertSortedDedup]
  | cons y ys ih =>
    simp only [insertSortedDedup]
    by_cases h1 : x < y
    · rw [if_pos h1]
      simp [List.mem_cons]
    · rw [if_neg h1]
      by_cases h2 : x = y
      · rw [if_pos h2]
        subst h2
        constructor
        · intro hb
          exact Or.inr hb
        · intro hb
          rcases hb with hb | hb
          · subst hb
            exact List.mem_cons_self _ _
          · exact hb
      · rw [if_neg h2]
        simp only [List.mem_cons, ih]
        tauto

theorem pairwise_insertSortedDedup (x : Nat) (l : List Nat)
    (h : l.Pairwise (· < ·)) : (insertSortedDedup x l).Pairwise (· < ·) := by
  induction l with
  | nil => simp [insertSortedDedup]
  | cons y ys ih =>
    rw [List.pairwise_cons] at h
    obtain ⟨hy, hys⟩ := h
    simp only [insertSortedDedup]
    by_cases h1 : x < y
    · rw [if_pos h1]
      refine List.pairwise_cons.mpr ⟨?_, List.pairwise_cons.mpr ⟨hy, hys⟩⟩
      intro b hb
      rcases List.mem_cons.mp hb with rfl | hb2
      · exact h1
      · exact h1.trans (hy b hb2)
    · rw [if_neg h1]
      by_cases h2 : x = y
      · rw [if_pos h2]
        exact List.pairwise_cons.mpr ⟨hy, hys⟩
      · rw [if_neg h2]
        refine List.pairwise_cons.mpr ⟨?_, ih hys⟩
        intro b hb
        rcases (mem_insertSortedDedup b x ys).mp hb with rfl | hb2
        · omega
        · exact hy b hb2

theorem mem_dedupSortIdx (a : Nat) (l : List Nat) : a ∈ dedupSortIdx l ↔ a ∈ l := by
  induction l with
  | nil => simp [dedupSortIdx]
  | cons x xs ih =>
    show a ∈ insertSortedDedup x (dedupSortIdx xs) ↔ _
    rw [mem_insertSortedDedup, ih]
    simp [List.mem_cons]

theorem pairwise_dedupSortIdx (l : List Nat) : (dedupSortIdx l).Pairwise (· < ·) := by
  induction l with
  | nil => simp [dedupSortIdx]
  | cons x xs ih => exact pairwise_insertSortedDedup x (dedupSortIdx xs) ih

/-- Claim C5: whenever the retention step returns, its output is the
original sequence indexed at the deduplicated ascending union of the
algorithm's indices and the `keep_points_on` mask indices; in particular
every original coordinate whose point intersects the mask geometry
survives, whatever the algorithm decided about it. -/
theorem claim5_keep_points_on_union (K : Kernel) (algorithm : SimplifyAlgorithm)
    (tolerance : Rat) (lookahead : Int) (kpo : Geometry) (coords : List Coord)
    (res : List Coord)
    (h : simplify_coords K algorithm tolerance lookahead (some kpo) coords = .ok res) :
    (∀ i, i < coords.length → K.intersects (coords.getD i (0, 0)) kpo = true →
      coords.getD i (0, 0) ∈ res) ∧
    ∃ idx keep, coords_simplify_idx K algorithm coords tolerance lookahead = .ok idx ∧
      keep = dedupSortIdx (idx ++ coords_on_border_idx K (some kpo) coords) ∧
      List.Pairwise (· < ·) keep ∧
      (∀ j, j ∈ keep ↔ j ∈ idx ∨ j ∈ coords_on_border_idx K (some kpo) coords) ∧
      res = keep.map fun i => coords.getD i (0, 0) := by
  rw [simplify_coords] at h
  cases hb : coords_simplify_idx K algorithm coords tolerance lookahead with
  | error e => rw [hb] at h; cases h
  | ok idx =>
    rw [hb] at h
    have h2 : (if (dedupSortIdx (idx ++ coords_on_border_idx K (some kpo) coords)).all
          (fun x => decide (x < coords.length)) = true then
        Except.ok ((dedupSortIdx (idx ++ coords_on_border_idx K (some kpo) coords)).map
          fun i => coords.getD i (0, 0))
      else (Except.error GeomError.indexOutOfRange : Except GeomError (List Coord))) =
        Except.ok res := h
    cases hall : (dedupSortIdx (idx ++ coords_on_border_idx K (some kpo) coords)).all
        (fun x => decide (x < coords.length)) with
    | false =>
      rw [if_neg (by simp [hall])] at h2
      cases h2
    | true =>
      rw [if_pos hall] at h2
      have hres : res = (dedupSortIdx (idx ++ coords_on_border_idx K (some kpo) coords)).map
          fun i => coords.getD i (0, 0) := by
        injection h2 with h3
        exact h3.symm
      constructor
      · intro i hi hint
        have hmem : i ∈ coords_on_border_idx K (some kpo) coords := by
          rw [coords_on_border_idx]
          refine List.mem_filter.mpr ⟨List.mem_range.mpr hi, hint⟩
        have hkeep : i ∈ dedupSortIdx (idx ++ coords_on_border_idx K (some kpo) coords) := by
          rw [mem_dedupSortIdx, List.mem_append]
          exact Or.inr hmem
        rw [hres]
        exact List.mem_map_of_mem _ hkeep
      · refine ⟨idx, _, rfl, rfl, pairwise_dedupSortIdx _, ?_, hres⟩
        intro j
        rw [mem_dedupSortIdx, List.mem_append]

/-- Claim C5 (witness): with the concrete kernel, whose RDP selector keeps
only the endpoints, the mask point on the middle coordinate forces index 1
back into the result. -/
theorem claim5_witness :
    (simplify_coords testKernel SimplifyAlgorithm.ramer_douglas_peucker 0 8
        (some exKeepPoint) exCoords3 = .ok exCoords3) ∧
    ((∀ i, i < exCoords3.length →
        testKernel.intersects (exCoords3.getD i (0, 0)) exKeepPoint = true →
        exCoords3.getD i (0, 0) ∈ exCoords3) ∧
      ∃ idx keep, coords_simplify_idx testKernel SimplifyAlgorithm.ramer_douglas_peucker
          exCoords3 0 8 = .ok idx ∧
        keep = dedupSortIdx (idx ++
          coords_on_border_idx testKernel (some exKeepPoint) exCoords3) ∧
        List.Pairwise (· < ·) keep ∧
        (∀ j, j ∈ keep ↔ j ∈ idx ∨
          j ∈ coords_on_border_idx testKernel (some exKeepPoint) exCoords3) ∧
        exCoords3 = keep.map fun i => exCoords3.getD i (0, 0)) := by
  have h : simplify_coords testKernel SimplifyAlgorithm.ramer_douglas_peucker 0 8
      (some exKeepPoint) exCoords3 = .ok exCoords3 := by rfl
  exact ⟨h, claim5_keep_points_on_union testKernel _ 0 8 exKeepPoint exCoords3 exCoords3 h⟩

/-! ## Claims about `simplify_ext` on short lines (C4) -/

/-- Claim C4: for a LineString with at most two coordinates and
`preserve_topology = true`, `simplify_ext` returns the line unchanged for
every tolerance, algorithm, lookahead and mask, provided the external
validity repair fixes this (already valid) line. -/
theorem claim4_short_linestring_unchanged (K : Kernel) (tolerance : Rat)
    (algorithm : SimplifyAlgorithm) (lookahead : Int) (keep_points_on : Option Geometry)
    (cs : List Coord) (hlen : cs.length ≤ 2)
    (hmv : K.make_valid (.lineString cs) = .lineString cs) :
    simplify_ext K tolerance algorithm lookahead true keep_points_on (.lineString cs) =
      .ok (.lineString cs) := by
  have h1 : simplify_linestring K algorithm tolerance lookahead true keep_points_on cs =
      .ok (.lineString cs) := by
    rw [simplify_linestring, if_pos hlen]
  have h2 : simplify_ext K tolerance algorithm lookahead true keep_points_on
      (.lineString cs) =
      (simplify_linestring K algorithm tolerance lookahead true keep_points_on cs).map
        K.make_valid := by
    simp [simplify_ext]
  rw [h2, h1]
  show Except.ok (K.make_valid (.lineString cs)) = _
  rw [hmv]

/-- Claim C4 (witness): a concrete two-point line through the concrete
kernel (whose validity repair is the identity). -/
theorem claim4_witness :
    ((([((0 : Rat), (0 : Rat)), ((1 : Rat), (1 : Rat))] : List Coord)).length ≤ 2 ∧
      testKernel.make_valid (.lineString [((0 : Rat), (0 : Rat)), ((1 : Rat), (1 : Rat))]) =
        .lineString [((0 : Rat), (0 : Rat)), ((1 : Rat), (1 : Rat))]) ∧
    simplify_ext testKernel 5 SimplifyAlgorithm.lang 8 true none
        (.lineString [((0 : Rat), (0 : Rat)), ((1 : Rat), (1 : Rat))]) =
      .ok (.lineString [((0 : Rat), (0 : Rat)), ((1 : Rat), (1 : Rat))]) := by
  refine ⟨⟨by simp, rfl⟩, ?_⟩
  exact claim4_short_linestring_unchanged testKernel 5 SimplifyAlgorithm.lang 8 none _
    (by simp) rfl

/-! ## Claims about `collection_extract` idempotence (C7) -/

theorem geomType_emptyOf (p : PrimitiveType) : geomType (emptyOf p) = baseTag p := by
  cases p <;> rfl

theorem collection_extract_emptyOf (p : PrimitiveType) :
    collection_extract (emptyOf p) p = .ok (emptyOf p) := by
  cases p <;> simp [collection_extract, emptyOf]

theorem collection_extract_list_length (l : List Geometry) (p : PrimitiveType)
    (rs : List Geometry) (h : collection_extract_list l p = .ok rs) :
    rs.length = l.length := by
  induction l generalizing rs with
  | nil =>
    rw [collection_extract_list] at h
    injection h with h1
    rw [← h1]
  | cons g gs ih =>
    rw [collection_extract_list] at h
    cases h1 : collection_extract g p with
    | error e => rw [h1] at h; cases h
    | ok r =>
      rw [h1] at h
      cases h2 : collection_extract_list gs p with
      | error e => rw [h2] at h; cases h
      | ok rs2 =>
        rw [h2] at h
        injection h with h3
        rw [← h3]
        simp [ih rs2 h2]

theorem collection_extract_list_mem (l : List Geometry) (p : PrimitiveType)
    (rs : List Geometry) (h : collection_extract_list l p = .ok rs) :
    ∀ r ∈ rs, ∃ g ∈ l, collection_extract g p = .ok r := by
  induction l generalizing rs with
  | nil =>
    rw [collection_extract_list] at h
    injection h with h1
    rw [← h1]
    intro r hr
    cases hr
  | cons g gs ih =>
    rw [collection_extract_list] at h
    cases h1 : collection_extract g p with
    | error e => rw [h1] at h; cases h
    | ok r0 =>
      rw [h1] at h
      cases h2 : collection_extract_list gs p with
      | error e => rw [h2] at h; cases h
      | ok rs2 =>
        rw [h2] at h
        injection h with h3
        rw [← h3]
        intro r hr
        rcases List.mem_cons.mp hr with rfl | hr2
        · exact ⟨g, List.mem_cons_self _ _, h1⟩
        · obtain ⟨g2, hg2, hex⟩ := ih rs2 h2 r hr2
          exact ⟨g2, List.mem_cons_of_mem _ hg2, hex⟩

theorem collection_extract_list_fix (rs : List Geometry) (p : PrimitiveType)
    (h : ∀ r ∈ rs, collection_extract r p = .ok r) :
    collection_extract_list rs p = .ok rs := by
  induction rs with
  | nil => rw [collection_extract_list]
  | cons r rest ih =>
    rw [collection_extract_list, h r (List.mem_cons_self _ _),
      ih fun r2 hr2 => h r2 (List.mem_cons_of_mem _ hr2)]

/-- Every successful extraction result carries the base tag of the
requested primitive, its Multi* tag, or the GeometryCollection tag. -/
theorem collection_extract_tag (n : Nat) : ∀ (g : Geometry), sizeOf g ≤ n →
    ∀ (p : PrimitiveType) (r : Geometry), collection_extract g p = .ok r →
    geomType r = baseTag p ∨ geomType r = multiTag p ∨
      geomType r = GeometryType.geometryCollection := by
  induction n with
  | zero =>
    intro g hg
    have hpos : 0 < sizeOf g := by cases g <;> simp_arith
    omega
  | succ n ih =>
    intro g hg p r h
    cases g with
    | point c =>
      rw [collection_extract] at h
      by_cases hp : p = PrimitiveType.point
      · rw [if_pos hp] at h
        injection h with h1
        subst hp
        rw [← h1]
        exact Or.inl rfl
      · rw [if_neg hp] at h
        injection h with h1
        rw [← h1, geomType_emptyOf]
        exact Or.inl rfl
    | multiPoint ps =>
      rw [collection_extract] at h
      by_cases hp : p = PrimitiveType.point
      · rw [if_pos hp] at h
        injection h with h1
        subst hp
        rw [← h1]
        exact Or.inr (Or.inl rfl)
      · rw [if_neg hp] at h
        injection h with h1
        rw [← h1, geomType_emptyOf]
        exact Or.inl rfl
    | lineString cs =>
      rw [collection_extract] at h
      by_cases hp : p = PrimitiveType.lineString
      · rw [if_pos hp] at h
        injection h with h1
        subst hp
        rw [← h1]
        exact Or.inl rfl
      · rw [if_neg hp] at h
        injection h with h1
        rw [← h1, geomType_emptyOf]
        exact Or.inl rfl
    | multiLineString ps =>
      rw [collection_extract] at h
      by_cases hp : p = PrimitiveType.lineString
      · rw [if_pos hp] at h
        injection h with h1
        subst hp
        rw [← h1]
        exact Or.inr (Or.inl rfl)
      · rw [if_neg hp] at h
        injection h with h1
        rw [← h1, geomType_emptyOf]
        exact Or.inl rfl
    | polygon sh ho =>
      rw [collection_extract] at h
      by_cases hp : p = PrimitiveType.polygon
      · rw [if_pos hp] at h
        injection h with h1
        subst hp
        rw [← h1]
        exact Or.inl rfl
      · rw [if_neg hp] at h
        injection h with h1
        rw [← h1, geomType_emptyOf]
        exact Or.inl rfl
    | multiPolygon ps =>
      rw [collection_extract] at h
      by_cases hp : p = PrimitiveType.polygon
      · rw [if_pos hp] at h
        injection h with h1
        subst hp
        rw [← h1]
        exact Or.inr (Or.inl rfl)
      · rw [if_neg hp] at h
        injection h with h1
        rw [← h1, geomType_emptyOf]
        exact Or.inl rfl
    | geometryCollection children =>
      rw [collection_extract] at h
      cases hl : collection_extract_list children p with
      | error e => rw [hl] at h; cases h
      | ok rs =>
        rw [hl] at h
        replace h : (if rs.length > 0 then collect (List.map some rs)
            else Except.ok (emptyOf p)) = Except.ok r := h
        have hchild : ∀ r2 ∈ rs, geomType r2 = baseTag p ∨ geomType r2 = multiTag p ∨
            geomType r2 = GeometryType.geometryCollection := by
          intro r2 hr2
          obtain ⟨g2, hg2, hex⟩ := collection_extract_list_mem children p rs hl r2 hr2
          have hsz : sizeOf g2 ≤ n := by
            have h1 := List.sizeOf_lt_of_mem hg2
            have h2 : sizeOf (Geometry.geometryCollection children) =
                1 + sizeOf children := by
              simp
            omega
          exact ih g2 hsz p r2 hex
        by_cases hlen : rs.length > 0
        · rw [if_pos hlen] at h
          match rs, hchild, hlen, h with
          | [e0], hchild, hlen, h =>
            have h2 : Except.ok e0 = Except.ok r := h
            injection h2 with h1
            rw [← h1]
            exact hchild e0 (List.mem_cons_self _ _)
          | e0 :: e1 :: rest2, hchild, hlen, h =>
            rw [collect_cons2] at h
            cases hall : (e0 :: e1 :: rest2).all
                (fun geom => decide (geomType geom = geomType e0)) with
            | false =>
              rw [if_neg (by simp [hall])] at h
              have h2 : Except.ok (Geometry.geometryCollection (e0 :: e1 :: rest2)) =
                  Except.ok r := h
              injection h2 with h1
              rw [← h1]
              exact Or.inr (Or.inr rfl)
            | true =>
              rw [if_pos hall] at h
              rcases hchild e0 (List.mem_cons_self _ _) with h0 | h0 | h0
              · rw [h0] at h
                cases p with
                | point =>
                  have h2 : Except.ok (Geometry.multiPoint (e0 :: e1 :: rest2)) =
                      Except.ok r := h
                  injection h2 with h1
                  rw [← h1]
                  exact Or.inr (Or.inl rfl)
                | lineString =>
                  have h2 : Except.ok (Geometry.multiLineString (e0 :: e1 :: rest2)) =
                      Except.ok r := h
                  injection h2 with h1
                  rw [← h1]
                  exact Or.inr (Or.inl rfl)
                | polygon =>
                  have h2 : Except.ok (Geometry.multiPolygon (e0 :: e1 :: rest2)) =
                      Except.ok r := h
                  injection h2 with h1
                  rw [← h1]
                  exact Or.inr (Or.inl rfl)
              · rw [h0] at h
                cases p with
                | point =>
                  have h2 : (Except.error GeomError.unsupportedCollectType :
                      Except GeomError Geometry) = Except.ok r := h
                  cases h2
                | lineString =>
                  have h2 : (Except.error GeomError.unsupportedCollectType :
                      Except GeomError Geometry) = Except.ok r := h
                  cases h2
                | polygon =>
                  have h2 : (Except.error GeomError.unsupportedCollectType :
                      Except GeomError Geometry) = Except.ok r := h
                  cases h2
              · rw [h0] at h
                have h2 : Except.ok (Geometry.geometryCollection (e0 :: e1 :: rest2)) =
                    Except.ok r := h
                injection h2 with h1
                rw [← h1]
                exact Or.inr (Or.inr rfl)
        · rw [if_neg hlen] at h
          injection h with h1
          rw [← h1, geomType_emptyOf]
          exact Or.inl rfl

/-- A geometry whose tag already lies in the requested primitive bucket is
a fixed point of `collection_extract`. -/
theorem collection_extract_bucket_fix (r : Geometry) (p : PrimitiveType)
    (h : geomType r = baseTag p ∨ geomType r = multiTag p) :
    collection_extract r p = .ok r := by
  cases r <;> cases p <;>
    simp [geomType, baseTag, multiTag, collection_extract] at h ⊢

/-- Size-bounded induction core of the idempotence claim. -/
theorem collection_extract_idem_aux (n : Nat) : ∀ (g : Geometry), sizeOf g ≤ n →
    ∀ (p : PrimitiveType) (r : Geometry), collection_extract g p = .ok r →
    collection_extract r p = .ok r := by
  induction n with
  | zero =>
    intro g hg
    have hpos : 0 < sizeOf g := by cases g <;> simp_arith
    omega
  | succ n ih =>
    intro g hg p r h
    cases g with
    | point c =>
      rw [collection_extract] at h
      by_cases hp : p = PrimitiveType.point
      · rw [if_pos hp] at h
        injection h with h1
        subst hp
        rw [← h1]
        exact collection_extract_bucket_fix _ _ (Or.inl rfl)
      · rw [if_neg hp] at h
        injection h with h1
        rw [← h1]
        exact collection_extract_emptyOf p
    | multiPoint ps =>
      rw [collection_extract] at h
      by_cases hp : p = PrimitiveType.point
      · rw [if_pos hp] at h
        injection h with h1
        subst hp
        rw [← h1]
        exact collection_extract_bucket_fix _ _ (Or.inr rfl)
      · rw [if_neg hp] at h
        injection h with h1
        rw [← h1]
        exact collection_extract_emptyOf p
    | lineString cs =>
      rw [collection_extract] at h
      by_cases hp : p = PrimitiveType.lineString
      · rw [if_pos hp] at h
        injection h with h1
        subst hp
        rw [← h1]
        exact collection_extract_bucket_fix _ _ (Or.inl rfl)
      · rw [if_neg hp] at h
        injection h with h1
        rw [← h1]
        exact collection_extract_emptyOf p
    | multiLineString ps =>
      rw [collection_extract] at h
      by_cases hp : p = PrimitiveType.lineString
      · rw [if_pos hp] at h
        injection h with h1
        subst hp
        rw [← h1]
        exact collection_extract_bucket_fix _ _ (Or.inr rfl)
      · rw [if_neg hp] at h
        injection h with h1
        rw [← h1]
        exact collection_extract_emptyOf p
    | polygon sh ho =>
      rw [collection_extract] at h
      by_cases hp : p = PrimitiveType.polygon
      · rw [if_pos hp] at h
        injection h with h1
        subst hp
        rw [← h1]
        exact collection_extract_bucket_fix _ _ (Or.inl rfl)
      · rw [if_neg hp] at h
        injection h with h1
        rw [← h1]
        exact collection_extract_emptyOf p
    | multiPolygon ps =>
      rw [collection_extract] at h
      by_cases hp : p = PrimitiveType.polygon
      · rw [if_pos hp] at h
        injection h with h1
        subst hp
        rw [← h1]
        exact collection_extract_bucket_fix _ _ (Or.inr rfl)
      · rw [if_neg hp] at h
        injection h with h1
        rw [← h1]
        exact collection_extract_emptyOf p
    | geometryCollection children =>
      rw [collection_extract] at h
      cases hl : collection_extract_list children p with
      | error e => rw [hl] at h; cases h
      | ok rs =>
        rw [hl] at h
        replace h : (if rs.length > 0 then collect (List.map some rs)
            else Except.ok (emptyOf p)) = Except.ok r := h
        have hfix : ∀ r2 ∈ rs, collection_extract r2 p = .ok r2 := by
          intro r2 hr2
          obtain ⟨g2, hg2, hex⟩ := collection_extract_list_mem children p rs hl r2 hr2
          have hsz : sizeOf g2 ≤ n := by
            have h1 := List.sizeOf_lt_of_mem hg2
            have h2 : sizeOf (Geometry.geometryCollection children) =
                1 + sizeOf children := by
              simp
            omega
          exact ih g2 hsz p r2 hex
        have hchild : ∀ r2 ∈ rs, geomType r2 = baseTag p ∨ geomType r2 = multiTag p ∨
            geomType r2 = GeometryType.geometryCollection := by
          intro r2 hr2
          obtain ⟨g2, hg2, hex⟩ := collection_extract_list_mem children p rs hl r2 hr2
          exact collection_extract_tag (sizeOf g2) g2 le_rfl p r2 hex
        by_cases hlen : rs.length > 0
        · rw [if_pos hlen] at h
          match rs, hfix, hchild, hlen, h with
          | [e0], hfix, hchild, hlen, h =>
            have h2 : Except.ok e0 = Except.ok r := h
            injection h2 with h1
            rw [← h1]
            exact hfix e0 (List.mem_cons_self _ _)
          | e0 :: e1 :: rest2, hfix, hchild, hlen, h =>
            have hgcfix : collection_extract
                (Geometry.geometryCollection (e0 :: e1 :: rest2)) p =
                collect ((e0 :: e1 :: rest2).map some) := by
              rw [collection_extract, collection_extract_list_fix (e0 :: e1 :: rest2) p hfix]
              show (if (e0 :: e1 :: rest2).length > 0
                  then collect ((e0 :: e1 :: rest2).map some)
                  else Except.ok (emptyOf p)) = collect ((e0 :: e1 :: rest2).map some)
              rw [if_pos (by simp)]
            have hcol : collect ((e0 :: e1 :: rest2).map some) = Except.ok r := h
            rw [collect_cons2] at h
            cases hall : (e0 :: e1 :: rest2).all
                (fun geom => decide (geomType geom = geomType e0)) with
            | false =>
              rw [if_neg (by simp [hall])] at h
              have h2 : Except.ok (Geometry.geometryCollection (e0 :: e1 :: rest2)) =
                  Except.ok r := h
              injection h2 with h1
              rw [← h1, hgcfix]
              rw [← h1] at hcol
              exact hcol
            | true =>
              rw [if_pos hall] at h
              rcases hchild e0 (List.mem_cons_self _ _) with h0 | h0 | h0
              · rw [h0] at h
                cases p with
                | point =>
                  have h2 : Except.ok (Geometry.multiPoint (e0 :: e1 :: rest2)) =
                      Except.ok r := h
                  injection h2 with h1
                  rw [← h1]
                  exact collection_extract_bucket_fix _ _ (Or.inr rfl)
                | lineString =>
                  have h2 : Except.ok (Geometry.multiLineString (e0 :: e1 :: rest2)) =
                      Except.ok r := h
                  injection h2 with h1
                  rw [← h1]
                  exact collection_extract_bucket_fix _ _ (Or.inr rfl)
                | polygon =>
                  have h2 : Except.ok (Geometry.multiPolygon (e0 :: e1 :: rest2)) =
                      Except.ok r := h
                  injection h2 with h1
                  rw [← h1]
                  exact collection_extract_bucket_fix _ _ (Or.inr rfl)
              · rw [h0] at h
                cases p with
                | point =>
                  have h2 : (Except.error GeomError.unsupportedCollectType :
                      Except GeomError Geometry) = Except.ok r := h
                  cases h2
                | lineString =>
                  have h2 : (Except.error GeomError.unsupportedCollectType :
                      Except GeomError Geometry) = Except.ok r := h
                  cases h2
                | polygon =>
                  have h2 : (Except.error GeomError.unsupportedCollectType :
                      Except GeomError Geometry) = Except.ok r := h
                  cases h2
              · rw [h0] at h
                have h2 : Except.ok (Geometry.geometryCollection (e0 :: e1 :: rest2)) =
                    Except.ok r := h
                injection h2 with h1
                rw [← h1, hgcfix]
                rw [← h1] at hcol
                exact hcol
        · rw [if_neg hlen] at h
          injection h with h1
          rw [← h1]
          exact collection_extract_emptyOf p

/-- Claim C7: whenever `collection_extract` succeeds, extracting the same
primitive type from its result is a no-op: the result is returned again
unchanged. -/
theorem claim7_collection_extract_idem (g : Geometry) (p : PrimitiveType) (r : Geometry)
    (h : collection_extract g p = .ok r) : collection_extract r p = .ok r :=
  collection_extract_idem_aux (sizeOf g) g le_rfl p r h

/-- Claim C7 (witness): extracting polygons from a singleton collection
yields the polygon, and re-extracting from that result yields it again. -/
theorem claim7_witness :
    collection_extract (Geometry.geometryCollection [exPoly]) .polygon = .ok exPoly ∧
      collection_extract exPoly .polygon = .ok exPoly := by
  have h : collection_extract (Geometry.geometryCollection [exPoly]) .polygon =
      .ok exPoly := by
    simp [collection_extract, collection_extract_list, collect, exPoly]
  exact ⟨h, claim7_collection_extract_idem _ _ _ h⟩

end Geofileops
